import Mathlib

/-!
Verification of the stage-1 feature pipeline (`src/pipeline_stage1.py`).

The pipeline reads a match-record CSV, validates required columns, projects a
fixed set of columns into a working table `X`, drops undatable rows, encodes
the full-time result as an ordinal label, derives home-minus-away differential
features, computes a partition year, splits by year thresholds, and writes the
feature table.

The embedding below models the pandas semantics the script relies on:
  * `df.get(c)` yields the column when present and the scalar `None` when the
    column is structurally absent; the `pd.DataFrame({...})` constructor
    broadcasts that scalar into an all-missing column, so every dictionary key
    becomes a column of `X` regardless of the source schema.
  * `astype(str)` renders a missing value as the string `"nan"`, so the
    `result` column of `X` is a string column that is never NA.
  * `pd.to_datetime(cell, errors="coerce")` is modelled abstractly: the raw
    date cell is an `Option Date` holding the parse result, `none` covering
    both a missing and an unparseable cell.
  * `pd.to_numeric(cell, errors="coerce")` is modelled by best-effort integer
    parsing of the cell string (`none` for missing or unparseable cells).
  * `NaN` propagates through subtraction: if either operand is missing the
    difference is missing.
-/

namespace Stage1

/-- A parsed calendar date, as produced by `pd.to_datetime` on a cell that the
forgiving parser accepted.  Only the year is consumed downstream
(`X["date"].dt.year`). -/
structure Date where
  year : Int
  month : Nat
  day : Nat
deriving DecidableEq

/-- One row of the raw CSV, restricted to the cells the pipeline reads.
`matchDate` is the result of the forgiving date parse (`none` = missing or
unparseable cell); every other optional cell is `none` when the value is
missing in a structurally present column.  Cells of structurally absent
columns are ignored (see `Schema` and `getCol`). -/
structure RawRow where
  matchDate : Option Date
  ftResult : Option String
  homeTeam : String
  awayTeam : String
  homeElo : Option String
  awayElo : Option String
  form3Home : Option String
  form3Away : Option String
  form5Home : Option String
  form5Away : Option String
  homeShots : Option String
  awayShots : Option String
  homeTarget : Option String
  awayTarget : Option String
  homeCorners : Option String
  awayCorners : Option String
  homeYellow : Option String
  awayYellow : Option String
  homeRed : Option String
  awayRed : Option String
  season : Option String
  division : Option String
deriving DecidableEq

/-- Structural presence of each source column the pipeline touches
(`c in df.columns`). -/
structure Schema where
  hasMatchDate : Bool
  hasFTResult : Bool
  hasHomeTeam : Bool
  hasAwayTeam : Bool
  hasHomeElo : Bool
  hasAwayElo : Bool
  hasForm3Home : Bool
  hasForm3Away : Bool
  hasForm5Home : Bool
  hasForm5Away : Bool
  hasHomeShots : Bool
  hasAwayShots : Bool
  hasHomeTarget : Bool
  hasAwayTarget : Bool
  hasHomeCorners : Bool
  hasAwayCorners : Bool
  hasHomeYellow : Bool
  hasAwayYellow : Bool
  hasHomeRed : Bool
  hasAwayRed : Bool
  hasSeason : Bool
  hasDivision : Bool
deriving DecidableEq

/-- The pipeline input: whether `MATCHES_CSV` exists on disk, and the parsed
CSV (schema plus rows). -/
structure Input where
  fileExists : Bool
  schema : Schema
  rows : List RawRow
deriving DecidableEq

/-- Membership `c in df.columns` for the columns the pipeline touches. -/
def hasColumn (s : Schema) : String → Bool
  | "MatchDate" => s.hasMatchDate
  | "FTResult" => s.hasFTResult
  | "HomeTeam" => s.hasHomeTeam
  | "AwayTeam" => s.hasAwayTeam
  | "HomeElo" => s.hasHomeElo
  | "AwayElo" => s.hasAwayElo
  | "Form3Home" => s.hasForm3Home
  | "Form3Away" => s.hasForm3Away
  | "Form5Home" => s.hasForm5Home
  | "Form5Away" => s.hasForm5Away
  | "HomeShots" => s.hasHomeShots
  | "AwayShots" => s.hasAwayShots
  | "HomeTarget" => s.hasHomeTarget
  | "AwayTarget" => s.hasAwayTarget
  | "HomeCorners" => s.hasHomeCorners
  | "AwayCorners" => s.hasAwayCorners
  | "HomeYellow" => s.hasHomeYellow
  | "AwayYellow" => s.hasAwayYellow
  | "HomeRed" => s.hasHomeRed
  | "AwayRed" => s.hasAwayRed
  | "Season" => s.hasSeason
  | "Division" => s.hasDivision
  | _ => false

/-- Line 6: the fixed input path `DATA_DIR / "data" / "MATCHES.csv"`. -/
def MATCHES_CSV : String :=
  "external/Club-Football-Match-Data-2000-2025/data/MATCHES.csv"

/-- Line 10: the remediation hint in the `FileNotFoundError` message
`f"Missing \x7bMATCHES_CSV\x7d. Clone the dataset into external/."`. -/
def cloneHint : String := "Clone the dataset into external/."

/-- Line 16: the required columns. -/
def must_have : List String := ["MatchDate", "FTResult", "HomeTeam", "AwayTeam"]

/-- Line 17: `[c for c in must_have if c not in df.columns]`. -/
def missingRequired (s : Schema) : List String :=
  must_have.filter (fun c => !hasColumn s c)

/-- The two fatal failure modes (lines 10 and 19).  The script raises
`FileNotFoundError(f"Missing \x7bMATCHES_CSV\x7d. Clone the dataset into external/.")`
and `RuntimeError(f"MATCHES.csv missing required columns: \x7bmissing\x7d")`; the
constructors carry the data those f-strings interpolate. -/
inductive PipelineError where
  | missingInput (path hint : String)
  | schemaError (missingCols : List String)
deriving DecidableEq

/-- Projection `df.get(name)` fed to the `pd.DataFrame` constructor: when the source
column is structurally present the cell of the row is used; when absent, `df.get`
returns the scalar `None`, which the constructor broadcasts to a missing value
in every row. -/
def getCol (present : Bool) (cell : Option String) : Option String :=
  if present then cell else none

/-- Uppercasing `.str.upper()` on one cell: uppercase every character.  (Stated as a
character map so that it reduces in the kernel; `upperStr_eq_toUpper` below
identifies it with `String.toUpper`.) -/
def upperStr (s : String) : String := ⟨s.data.map Char.toUpper⟩

/-- Line 26: `df["FTResult"].astype(str).str.upper()`.  `astype(str)` renders
a missing cell as the string `"nan"`, which `.upper()` turns into `"NAN"`; a
present cell is uppercased. -/
def resultStr : Option String → String
  | none => "NAN"
  | some s => upperStr s

/-- One row of the working table `X` built on lines 22-44, after the
`dropna(subset=["date", "result"])` on line 45 (hence `date` is a parsed
`Date`, not an `Option`). -/
structure XRow where
  date : Date
  home : String
  away : String
  result : String
  elo_h : Option String
  elo_a : Option String
  form3_h : Option String
  form3_a : Option String
  form5_h : Option String
  form5_a : Option String
  shots_h : Option String
  shots_a : Option String
  sot_h : Option String
  sot_a : Option String
  corners_h : Option String
  corners_a : Option String
  yc_h : Option String
  yc_a : Option String
  rc_h : Option String
  rc_a : Option String
  season : Option String
  league : Option String
deriving DecidableEq

/-- Lines 22-44: the projection of one raw row into `X`, given the parsed
date `d` of the row. -/
def mkXRow (s : Schema) (r : RawRow) (d : Date) : XRow where
  date := d
  home := r.homeTeam
  away := r.awayTeam
  result := resultStr r.ftResult
  elo_h := getCol s.hasHomeElo r.homeElo
  elo_a := getCol s.hasAwayElo r.awayElo
  form3_h := getCol s.hasForm3Home r.form3Home
  form3_a := getCol s.hasForm3Away r.form3Away
  form5_h := getCol s.hasForm5Home r.form5Home
  form5_a := getCol s.hasForm5Away r.form5Away
  shots_h := getCol s.hasHomeShots r.homeShots
  shots_a := getCol s.hasAwayShots r.awayShots
  sot_h := getCol s.hasHomeTarget r.homeTarget
  sot_a := getCol s.hasAwayTarget r.awayTarget
  corners_h := getCol s.hasHomeCorners r.homeCorners
  corners_a := getCol s.hasAwayCorners r.awayCorners
  yc_h := getCol s.hasHomeYellow r.homeYellow
  yc_a := getCol s.hasAwayYellow r.awayYellow
  rc_h := getCol s.hasHomeRed r.homeRed
  rc_a := getCol s.hasAwayRed r.awayRed
  season := getCol s.hasSeason r.season
  league := getCol s.hasDivision r.division

/-- Lines 22-45: build `X` and apply `dropna(subset=["date", "result"])`.
The `result` column has dtype `str` after `astype(str)` (a missing result has
become the literal string `"nan"`), so it is never NA and only the `date`
condition can drop a row: a row is dropped exactly when its date cell is
missing or unparseable. -/
def normalizeRows (s : Schema) (rows : List RawRow) : List XRow :=
  rows.filterMap (fun r =>
    match r.matchDate with
    | none => none
    | some d => some (mkXRow s r d))

/-- Line 48: `map_features = {"A": 1, "D": 2, "H": 3}` applied via
`.map` (line 49); an unmapped result yields a missing label. -/
def map_features (r : String) : Option Int :=
  if r = "A" then some 1
  else if r = "D" then some 2
  else if r = "H" then some 3
  else none

/-- A row of `X` together with its encoded label, after the
`dropna(subset=["y"])` on line 50. -/
structure LRow where
  x : XRow
  y : Int
deriving DecidableEq

/-- Lines 49-50: encode `y` and drop rows whose result did not map. -/
def labelRows (xs : List XRow) : List LRow :=
  xs.filterMap (fun x => (map_features x.result).map (fun y => ⟨x, y⟩))

/-- Digits of a numeric string (all characters decimal digits, nonempty),
read as a natural number. -/
def parseDigits (l : List Char) : Option Nat :=
  if l ≠ [] ∧ l.all Char.isDigit then
    some (l.foldl (fun n c => n * 10 + (c.toNat - 48)) 0)
  else none

/-- Best-effort numeric reading of a cell string, modelling
`pd.to_numeric(cell, errors="coerce")` on integer-valued cells: an optional
leading minus sign followed by digits; anything else coerces to missing. -/
def parseNum (t : String) : Option Int :=
  match t.data with
  | '-' :: rest => (parseDigits rest).map (fun n => -(n : Int))
  | l => (parseDigits l).map (fun n => (n : Int))

/-- Lines 53-54: `fnum(s) = pd.to_numeric(s, errors="coerce")`; a missing
cell stays missing. -/
def fnum (c : Option String) : Option Int := c.bind parseNum

/-- Subtraction of two nullable numeric cells; `NaN` propagates: if either
operand is missing the difference is missing. -/
def optSub : Option Int → Option Int → Option Int
  | some a, some b => some (a - b)
  | _, _ => none

/-- Four consecutive digits starting at the head of the list, if any. -/
def take4Digits : List Char → Option (List Char)
  | a :: b :: c :: d :: _ =>
    if a.isDigit && b.isDigit && c.isDigit && d.isDigit then some [a, b, c, d]
    else none
  | _ => none

/-- Leftmost run of four consecutive digits, scanning left to right: the
match `re.search` finds for the pattern of four digits. -/
def findRun4 : List Char → Option (List Char)
  | [] => none
  | c :: tl =>
    match take4Digits (c :: tl) with
    | some r => some r
    | none => findRun4 tl

/-- Line 73: `.str.extract(r"(\d\x7b4\x7d)")[0]` followed by the numeric coercion of
line 74: the leftmost four-digit run of the string, as a number. -/
def extract4 (t : String) : Option Nat :=
  (findRun4 t.data).map (fun l => l.foldl (fun n c => n * 10 + (c.toNat - 48)) 0)

/-- Line 73: `X["season"].astype(str)` on one cell: a missing season label
renders as `"nan"` (which contains no digit run). -/
def seasonAsStr : Option String → String
  | none => "nan"
  | some s => s

/-- Line 72: `X["season"].notna().any()` — evaluated on the table that
survived the drops of lines 45 and 50. -/
def seasonAny (ls : List LRow) : Bool :=
  ls.any (fun l => l.x.season.isSome)

/-- Lines 71-76: the partition year of one row.  When the table-wide flag is
set, extract a four-digit run from the season label of the row and fall back to
the calendar year of the date when extraction fails (`fillna(X["date"].dt.year)`);
otherwise use the calendar year of the date.  The result is always an integer
(`astype(int)`), never missing. -/
def yearOf (useSeason : Bool) (season : Option String) (date : Date) : Int :=
  if useSeason then
    match extract4 (seasonAsStr season) with
    | some n => (n : Int)
    | none => date.year
  else date.year

/-- A fully derived row of `X`: lines 49 (label), 57-69 (differential
features) and 71-76 (partition year) applied to a retained row.  The loop on
lines 61-69 assigns every conditional differential column because its guard
`h in X and a in X` tests membership in `X` — where every projected column
exists — rather than in the source schema (see `condGuardAlwaysTrue`). -/
structure DRow where
  date : Date
  home : String
  away : String
  result : String
  season : Option String
  league : Option String
  y : Int
  d_elo : Option Int
  d_form3 : Option Int
  d_form5 : Option Int
  d_shots : Option Int
  d_sot : Option Int
  d_corners : Option Int
  d_yc : Option Int
  d_rc : Option Int
  year : Int
deriving DecidableEq

/-- Lines 57-76 applied to one labelled row. -/
def deriveRow (useSeason : Bool) (l : LRow) : DRow where
  date := l.x.date
  home := l.x.home
  away := l.x.away
  result := l.x.result
  season := l.x.season
  league := l.x.league
  y := l.y
  d_elo := optSub (fnum l.x.elo_h) (fnum l.x.elo_a)
  d_form3 := optSub (fnum l.x.form3_h) (fnum l.x.form3_a)
  d_form5 := optSub (fnum l.x.form5_h) (fnum l.x.form5_a)
  d_shots := optSub (fnum l.x.shots_h) (fnum l.x.shots_a)
  d_sot := optSub (fnum l.x.sot_h) (fnum l.x.sot_a)
  d_corners := optSub (fnum l.x.corners_h) (fnum l.x.corners_a)
  d_yc := optSub (fnum l.x.yc_h) (fnum l.x.yc_a)
  d_rc := optSub (fnum l.x.rc_h) (fnum l.x.rc_a)
  year := yearOf useSeason l.x.season l.x.date

/-- Lines 22-76: the fully derived table. -/
def derivedTable (s : Schema) (rows : List RawRow) : List DRow :=
  let ls := labelRows (normalizeRows s rows)
  ls.map (deriveRow (seasonAny ls))

/-- The columns of `X` created by the `pd.DataFrame` constructor on lines
22-44, in dictionary-insertion order.  The constructor creates a column for
every dictionary key: `df.get` of an absent source column yields the scalar
`None`, which pandas broadcasts into an all-missing column, so all 22 keys
become columns of `X` regardless of the source schema. -/
def xBaseColumns : List String :=
  ["date", "home", "away", "result",
   "elo_h", "elo_a", "form3_h", "form3_a", "form5_h", "form5_a",
   "shots_h", "shots_a", "sot_h", "sot_a", "corners_h", "corners_a",
   "yc_h", "yc_a", "rc_h", "rc_a", "season", "league"]

/-- Lines 61-67: the `(h, a, n)` triples of the conditional-feature loop. -/
def condFeatures : List (String × String × String) :=
  [("shots_h", "shots_a", "d_shots"),
   ("sot_h", "sot_a", "d_sot"),
   ("corners_h", "corners_a", "d_corners"),
   ("yc_h", "yc_a", "d_yc"),
   ("rc_h", "rc_a", "d_rc")]

/-- The columns of `X` after lines 49-69: the base columns, then `y`
(line 49), the three unconditional differentials (lines 57-59), then each
conditional differential appended when its guard `h in X and a in X`
(line 68) holds against the columns of `X` at that point in the loop. -/
def xColumnsAfterLoop : List String :=
  condFeatures.foldl
    (fun cols t =>
      match t with
      | (h, a, n) => if h ∈ cols ∧ a ∈ cols then cols ++ [n] else cols)
    (xBaseColumns ++ ["y", "d_elo", "d_form3", "d_form5"])

/-- The columns of `X` after line 76 (`year` appended). -/
def xColumns : List String := xColumnsAfterLoop ++ ["year"]

/-- Python `c.startswith("d_")` on a column name. -/
def startsWithD (c : String) : Bool :=
  match c.data with
  | 'd' :: '_' :: _ => true
  | _ => false

/-- Line 82: `[c for c in X.columns if c.startswith("d_")]`. -/
def feature_cols : List String := xColumns.filter startsWithD

/-- Line 90: `["date","home","away","y","year"] + feature_cols`. -/
def out_cols : List String := ["date", "home", "away", "y", "year"] ++ feature_cols

/-- The written output table (line 92, `X[out_cols].to_csv(...)`): the
exported column list plus the retained rows, in order. -/
structure Output where
  cols : List String
  rows : List DRow
deriving DecidableEq

/-- Lines 8-92: the whole run.  Check the input file exists (line 9), check
the required columns (lines 16-19), then normalize, derive and write. -/
def run (i : Input) : Except PipelineError Output :=
  if i.fileExists then
    if missingRequired i.schema = [] then
      Except.ok { cols := out_cols, rows := derivedTable i.schema i.rows }
    else Except.error (PipelineError.schemaError (missingRequired i.schema))
  else Except.error (PipelineError.missingInput MATCHES_CSV cloneHint)

/-- Line 78: `train = X[X["year"] <= 2022]`. -/
def train (rows : List DRow) : List DRow :=
  rows.filter (fun r => r.year ≤ 2022)

/-- Line 79: `validation = X[X["year"] == 2023]`. -/
def validation (rows : List DRow) : List DRow :=
  rows.filter (fun r => r.year = 2023)

/-- Line 80: `test = X[X["year"] == 2024]`. -/
def testSplit (rows : List DRow) : List DRow :=
  rows.filter (fun r => r.year = 2024)

/-! ### Shared lemmas about the embedding -/

/-- Our kernel-reducible uppercase map agrees with `String.toUpper`. -/
theorem upperStr_eq_toUpper (s : String) : upperStr s = s.toUpper := by
  rw [String.toUpper, String.map_eq]
  rfl

/-- The label dictionary maps exactly the three literals. -/
theorem map_features_eq_some {t : String} {y : Int} (h : map_features t = some y) :
    (t = "A" ∧ y = 1) ∨ (t = "D" ∧ y = 2) ∨ (t = "H" ∧ y = 3) := by
  unfold map_features at h
  split at h
  · exact Or.inl ⟨by assumption, by injection h with h; exact h.symm⟩
  · split at h
    · exact Or.inr (Or.inl ⟨by assumption, by injection h with h; exact h.symm⟩)
    · split at h
      · exact Or.inr (Or.inr ⟨by assumption, by injection h with h; exact h.symm⟩)
      · exact absurd h (by simp)

/-- Membership in the label-filtered table: the row survived the filter of
line 50, so its result mapped to its label. -/
theorem mem_labelRows {xs : List XRow} {l : LRow} (h : l ∈ labelRows xs) :
    l.x ∈ xs ∧ map_features l.x.result = some l.y := by
  unfold labelRows at h
  rcases List.mem_filterMap.mp h with ⟨x, hx, hmap⟩
  rcases hmy : map_features x.result with _ | y
  · rw [hmy] at hmap
    simp at hmap
  · rw [hmy] at hmap
    simp at hmap
    subst hmap
    exact ⟨hx, hmy⟩

/-- Membership in the normalized table: the row came from a raw row whose
date cell parsed. -/
theorem mem_normalizeRows {s : Schema} {rs : List RawRow} {x : XRow}
    (h : x ∈ normalizeRows s rs) :
    ∃ r ∈ rs, r.matchDate = some x.date ∧ x = mkXRow s r x.date := by
  unfold normalizeRows at h
  rcases List.mem_filterMap.mp h with ⟨r, hr, hmk⟩
  rcases hd : r.matchDate with _ | d
  · rw [hd] at hmk
    exact absurd hmk (by simp)
  · rw [hd] at hmk
    injection hmk with hmk
    subst hmk
    exact ⟨r, hr, hd, rfl⟩

/-- Membership in the derived table. -/
theorem mem_derivedTable {s : Schema} {rs : List RawRow} {d : DRow}
    (h : d ∈ derivedTable s rs) :
    ∃ l ∈ labelRows (normalizeRows s rs),
      d = deriveRow (seasonAny (labelRows (normalizeRows s rs))) l := by
  unfold derivedTable at h
  rcases List.mem_map.mp h with ⟨l, hl, hd⟩
  exact ⟨l, hl, hd.symm⟩

/-- A successful run passed both fatal checks and wrote the derived table
under the exported columns. -/
theorem run_eq_ok {i : Input} {o : Output} (h : run i = Except.ok o) :
    i.fileExists = true ∧ missingRequired i.schema = [] ∧
      o = { cols := out_cols, rows := derivedTable i.schema i.rows } := by
  unfold run at h
  split at h
  · split at h
    · refine ⟨by assumption, by assumption, ?_⟩
      injection h with h
      exact h.symm
    · exact absurd h (by simp)
  · exact absurd h (by simp)

/-- Normalization drops exactly the rows whose date cell is missing or
unparseable (the `result` column, being of string dtype, is never NA). -/
theorem normalizeRows_length (s : Schema) (rs : List RawRow) :
    (normalizeRows s rs).length = rs.countP (fun r => r.matchDate.isSome) := by
  induction rs with
  | nil => rfl
  | cons r tl ih =>
    unfold normalizeRows at ih ⊢
    rcases hd : r.matchDate with _ | d <;>
      simp [List.filterMap_cons, hd, List.countP_cons, ih]

/-- A present projected cell comes from a present source cell. -/
theorem getCol_eq_some {p : Bool} {c : Option String} {v : String}
    (h : getCol p c = some v) : c = some v := by
  unfold getCol at h
  split at h
  · exact h
  · exact absurd h (by simp)

/-! ### Concrete fixtures used by witnesses and counterexamples -/

/-- A schema in which every optional and required source column is present. -/
def fullSchema : Schema :=
  ⟨true, true, true, true, true, true, true, true, true, true, true,
   true, true, true, true, true, true, true, true, true, true, true⟩

/-- A raw row with every cell missing. -/
def blankRaw : RawRow :=
  { matchDate := none, ftResult := none, homeTeam := "", awayTeam := "",
    homeElo := none, awayElo := none, form3Home := none, form3Away := none,
    form5Home := none, form5Away := none, homeShots := none, awayShots := none,
    homeTarget := none, awayTarget := none, homeCorners := none, awayCorners := none,
    homeYellow := none, awayYellow := none, homeRed := none, awayRed := none,
    season := none, division := none }

/-- A schema with `HomeShots` present but `AwayShots` structurally absent. -/
def schemaC1 : Schema :=
  { fullSchema with
    hasAwayShots := false }

/-- A match row dated 2024-01-02, result `H`, five home shots. -/
def rawC1 : RawRow :=
  { blankRaw with
    matchDate := some ⟨2024, 1, 2⟩, ftResult := some "H",
    homeTeam := "Alpha", awayTeam := "Beta", homeShots := some "5" }

/-- An input whose source schema lacks the `AwayShots` column. -/
def inputC1 : Input := ⟨true, schemaC1, [rawC1]⟩

/-! ### Claim theorems -/

/-- C1 (code bug): the claim says a conditional differential column appears
in the output iff both its home and away source columns existed in the
source schema, with structural absence removing the column entirely.  The
code instead tests `h in X and a in X` (line 68) against the working table
`X`, where every projected column exists — `df.get` of an absent source
column broadcasts to an all-missing column — so the guard is always true.
Evaluated at an input whose schema lacks `AwayShots`: the run succeeds,
`d_shots` is nonetheless among the output columns, and its value in the
single retained row is missing. -/
theorem C1_diff_column_not_schema_conditional :
    schemaC1.hasAwayShots = false
    ∧ run inputC1 = Except.ok { cols := out_cols, rows := derivedTable schemaC1 [rawC1] }
    ∧ "d_shots" ∈ out_cols
    ∧ (derivedTable schemaC1 [rawC1]).map DRow.d_shots = [none]
    ∧ (derivedTable schemaC1 [rawC1]).length = 1 :=
  ⟨by decide, rfl, by decide, by decide, by decide⟩

/-- A raw row with a parsed date but a missing result cell. -/
def rawC2 : RawRow :=
  { blankRaw with
    matchDate := some ⟨2024, 3, 4⟩ }

/-- A raw row with a parsed date and result `D`. -/
def rawC2b : RawRow :=
  { blankRaw with
    matchDate := some ⟨2024, 3, 5⟩, ftResult := some "D" }

/-- C2 (counterexample): the claim says every row whose result value is
missing is dropped during normalization, before any derivation.  In the
code, `astype(str)` converts the missing result into the literal string
`"nan"` before the `dropna(subset=["date", "result"])` of line 45 looks at
it, so the row is retained by normalization (it is only dropped later, by
the label filter of line 50). -/
theorem C2_counterexample_missing_result_retained :
    rawC2.ftResult = none
    ∧ (normalizeRows fullSchema [rawC2]).length = 1
    ∧ (normalizeRows fullSchema [rawC2]).map XRow.result = ["NAN"] :=
  ⟨rfl, rfl, by decide⟩

/-- C2 (amended): normalization drops exactly the rows whose date cell is
missing or unparseable; rows with a missing result survive normalization (as
the string `"NAN"`) and are instead dropped by the label-mapping filter, so
every row that reaches feature derivation comes from a raw row with a parsed
date and a result that maps to a label. -/
theorem C2_normalization_drops (s : Schema) (rs : List RawRow) :
    (normalizeRows s rs).length = rs.countP (fun r => r.matchDate.isSome)
    ∧ ∀ l ∈ labelRows (normalizeRows s rs),
        ∃ r ∈ rs, r.matchDate = some l.x.date
          ∧ map_features (resultStr r.ftResult) = some l.y := by
  refine ⟨normalizeRows_length s rs, ?_⟩
  intro l hl
  obtain ⟨hx, hmap⟩ := mem_labelRows hl
  obtain ⟨r, hr, hdate, hmk⟩ := mem_normalizeRows hx
  refine ⟨r, hr, hdate, ?_⟩
  have hres : l.x.result = resultStr r.ftResult := by
    rw [hmk]
    rfl
  rw [← hres]
  exact hmap

/-- The labelled row arising from `rawC2b`. -/
def lC2 : LRow := ⟨mkXRow fullSchema rawC2b ⟨2024, 3, 5⟩, 2⟩

/-- C2 witness: the amended statement applied to a concrete two-row table
(one missing-result row, one row with result `D`). -/
theorem C2_witness :
    ∃ r ∈ [rawC2, rawC2b], r.matchDate = some lC2.x.date
      ∧ map_features (resultStr r.ftResult) = some lC2.y :=
  (C2_normalization_drops fullSchema [rawC2, rawC2b]).2 lC2 (by decide)

/-- C3: every row of a successful run carries a label in \x7b1, 2, 3\x7d obtained by
the fixed mapping A to 1, D to 2, H to 3 applied to its (uppercased) result;
the mapping sends every other string to a missing label, and rows with a
missing label never reach the output; uppercasing first makes the mapping
case-insensitive. -/
theorem C3_label_mapping (i : Input) (o : Output) (h : run i = Except.ok o) :
    (∀ r ∈ o.rows, (r.y = 1 ∨ r.y = 2 ∨ r.y = 3) ∧ map_features r.result = some r.y)
    ∧ map_features "A" = some 1 ∧ map_features "D" = some 2 ∧ map_features "H" = some 3
    ∧ (∀ t y, map_features t = some y →
        (t = "A" ∧ y = 1) ∨ (t = "D" ∧ y = 2) ∨ (t = "H" ∧ y = 3))
    ∧ (∀ c : String, resultStr (some c) = c.toUpper) := by
  obtain ⟨-, -, ho⟩ := run_eq_ok h
  subst ho
  refine ⟨?_, by decide, by decide, by decide,
    fun t y hty => map_features_eq_some hty, fun c => upperStr_eq_toUpper c⟩
  intro r hr
  obtain ⟨l, hl, hd⟩ := mem_derivedTable hr
  obtain ⟨-, hmap⟩ := mem_labelRows hl
  have hy : r.y = l.y := by
    rw [hd]
    rfl
  have hres : r.result = l.x.result := by
    rw [hd]
    rfl
  constructor
  · rcases map_features_eq_some hmap with ⟨-, h1⟩ | ⟨-, h1⟩ | ⟨-, h1⟩
    · exact Or.inl (by rw [hy, h1])
    · exact Or.inr (Or.inl (by rw [hy, h1]))
    · exact Or.inr (Or.inr (by rw [hy, h1]))
  · rw [hres, hy]
    exact hmap

/-- A raw row whose result cell is the lowercase string `"a"`. -/
def rawC3 : RawRow :=
  { blankRaw with
    matchDate := some ⟨2020, 5, 6⟩, ftResult := some "a",
    homeTeam := "Gamma", awayTeam := "Delta" }

def inputC3 : Input := ⟨true, fullSchema, [rawC3]⟩

def oC3 : Output := ⟨out_cols, derivedTable fullSchema [rawC3]⟩

/-- The derived row arising from `rawC3` (lowercase result `"a"` maps,
case-insensitively, to label 1). -/
def dC3 : DRow := deriveRow false ⟨mkXRow fullSchema rawC3 ⟨2020, 5, 6⟩, 1⟩

/-- C3 witness: the label property at a concrete run whose single row has
the lowercase result `"a"`. -/
theorem C3_witness :
    (dC3.y = 1 ∨ dC3.y = 2 ∨ dC3.y = 3) ∧ map_features dC3.result = some dC3.y :=
  (C3_label_mapping inputC3 oC3 rfl).1 dC3 (by decide)

/-- C4: if any retained row has a non-missing season label then every output
row's partition year is the leftmost four-digit run of its own season label,
falling back to the calendar year of its date when extraction fails; if no
retained row has a season label, every output row's partition year is the
calendar year of its date.  (The year field is an `Int`, so it is never
missing.) -/
theorem C4_partition_year (i : Input) (o : Output) (h : run i = Except.ok o) :
    ((∃ l ∈ labelRows (normalizeRows i.schema i.rows), l.x.season ≠ none) →
      ∀ r ∈ o.rows,
        r.year = match extract4 (seasonAsStr r.season) with
          | some n => (n : Int)
          | none => r.date.year)
    ∧ ((∀ l ∈ labelRows (normalizeRows i.schema i.rows), l.x.season = none) →
      ∀ r ∈ o.rows, r.year = r.date.year) := by
  obtain ⟨-, -, ho⟩ := run_eq_ok h
  subst ho
  constructor
  · rintro ⟨l0, hl0, hs0⟩ r hr
    have hany : seasonAny (labelRows (normalizeRows i.schema i.rows)) = true := by
      unfold seasonAny
      rw [List.any_eq_true]
      exact ⟨l0, hl0, by rwa [Option.isSome_iff_ne_none]⟩
    obtain ⟨l, hl, hd⟩ := mem_derivedTable hr
    rw [hd]
    show yearOf (seasonAny (labelRows (normalizeRows i.schema i.rows))) l.x.season l.x.date
        = match extract4 (seasonAsStr l.x.season) with
          | some n => (n : Int)
          | none => l.x.date.year
    rw [hany]
    rfl
  · intro hall r hr
    have hany : seasonAny (labelRows (normalizeRows i.schema i.rows)) = false := by
      unfold seasonAny
      rw [List.any_eq_false]
      intro l hl
      rw [hall l hl]
      simp
    obtain ⟨l, hl, hd⟩ := mem_derivedTable hr
    rw [hd]
    show yearOf (seasonAny (labelRows (normalizeRows i.schema i.rows))) l.x.season l.x.date
        = l.x.date.year
    rw [hany]
    rfl

/-- A row with season label `"2021/2022"` but match date in 2024. -/
def rawC4 : RawRow :=
  { blankRaw with
    matchDate := some ⟨2024, 7, 8⟩, ftResult := some "H",
    homeTeam := "Eps", awayTeam := "Zeta", season := some "2021/2022" }

/-- A row with no season label and match date in 2019. -/
def rawC4b : RawRow :=
  { blankRaw with
    matchDate := some ⟨2019, 7, 9⟩, ftResult := some "D",
    homeTeam := "Eta", awayTeam := "Theta" }

def inputC4 : Input := ⟨true, fullSchema, [rawC4, rawC4b]⟩

def oC4 : Output := ⟨out_cols, derivedTable fullSchema [rawC4, rawC4b]⟩

def lC4 : LRow := ⟨mkXRow fullSchema rawC4 ⟨2024, 7, 8⟩, 3⟩

def dC4 : DRow := deriveRow true lC4

/-- C4 witness: in a run where a season label is present, the season-derived
year 2021 overrides the 2024 match date. -/
theorem C4_witness : dC4.year = 2021 := by
  have h := (C4_partition_year inputC4 oC4 rfl).1 ⟨lC4, by decide, by decide⟩ dC4 (by decide)
  rw [h]
  decide

/-- C5: the train (year at most 2022), validation (year 2023) and test
(year 2024) splits of a successful run are pairwise disjoint, their union is
exactly the retained rows with partition year at most 2024, and retained
rows with a later year belong to none of the three. -/
theorem C5_splits (i : Input) (o : Output) (h : run i = Except.ok o) (r : DRow) :
    ((r ∈ train o.rows → r ∉ validation o.rows ∧ r ∉ testSplit o.rows)
      ∧ (r ∈ validation o.rows → r ∉ testSplit o.rows))
    ∧ ((r ∈ train o.rows ∨ r ∈ validation o.rows ∨ r ∈ testSplit o.rows) ↔
        (r ∈ o.rows ∧ r.year ≤ 2024))
    ∧ (r.year > 2024 → r ∉ train o.rows ∧ r ∉ validation o.rows ∧ r ∉ testSplit o.rows) := by
  have ht : r ∈ train o.rows ↔ r ∈ o.rows ∧ r.year ≤ 2022 := by
    unfold train
    rw [List.mem_filter]
    simp
  have hv : r ∈ validation o.rows ↔ r ∈ o.rows ∧ r.year = 2023 := by
    unfold validation
    rw [List.mem_filter]
    simp
  have hs : r ∈ testSplit o.rows ↔ r ∈ o.rows ∧ r.year = 2024 := by
    unfold testSplit
    rw [List.mem_filter]
    simp
  rw [ht, hv, hs]
  refine ⟨⟨?_, ?_⟩, ⟨?_, ?_⟩, ?_⟩
  · rintro ⟨hm, hy⟩
    exact ⟨fun hc => by omega, fun hc => by omega⟩
  · rintro ⟨hm, hy⟩
    exact fun hc => by omega
  · rintro (⟨hm, hy⟩ | ⟨hm, hy⟩ | ⟨hm, hy⟩) <;> exact ⟨hm, by omega⟩
  · rintro ⟨hm, hy⟩
    have hcase : r.year ≤ 2022 ∨ r.year = 2023 ∨ r.year = 2024 := by omega
    rcases hcase with h1 | h1 | h1
    · exact Or.inl ⟨hm, h1⟩
    · exact Or.inr (Or.inl ⟨hm, h1⟩)
    · exact Or.inr (Or.inr ⟨hm, h1⟩)
  · intro hy
    exact ⟨fun hc => by omega, fun hc => by omega, fun hc => by omega⟩

/-- A row dated 2023 with result `A` and no season label. -/
def rawC5 : RawRow :=
  { blankRaw with
    matchDate := some ⟨2023, 1, 1⟩, ftResult := some "A",
    homeTeam := "Nu", awayTeam := "Xi" }

def inputC5 : Input := ⟨true, fullSchema, [rawC5]⟩

def oC5 : Output := ⟨out_cols, derivedTable fullSchema [rawC5]⟩

def dC5 : DRow := deriveRow false ⟨mkXRow fullSchema rawC5 ⟨2023, 1, 1⟩, 1⟩

/-- C5 witness: the split-coverage equivalence at a concrete run with one
2023 row. -/
theorem C5_witness :
    (dC5 ∈ train oC5.rows ∨ dC5 ∈ validation oC5.rows ∨ dC5 ∈ testSplit oC5.rows) ↔
      (dC5 ∈ oC5.rows ∧ dC5.year ≤ 2024) :=
  (C5_splits inputC5 oC5 rfl dC5).2.1

/-- A schema lacking both `AwayShots` and `HomeCorners`. -/
def schemaC6 : Schema :=
  { fullSchema with
    hasAwayShots := false, hasHomeCorners := false }

def rawC6a : RawRow :=
  { blankRaw with
    matchDate := some ⟨2021, 4, 5⟩, ftResult := some "A",
    homeTeam := "Alpha1", awayTeam := "Beta1" }

def rawC6b : RawRow :=
  { blankRaw with
    matchDate := some ⟨2022, 4, 6⟩, ftResult := some "D",
    homeTeam := "Alpha2", awayTeam := "Beta2" }

def inputC6 : Input := ⟨true, schemaC6, [rawC6a, rawC6b]⟩

def oC6 : Output := ⟨out_cols, derivedTable schemaC6 [rawC6a, rawC6b]⟩

/-- C6 (code bug): the claim says the output columns are exactly date, home,
away, y, year followed by the present differential columns in fixed order,
with each conditional column present only when both of its source columns
existed.  The base-column set, the fixed enumeration order and the row
coverage and ordering do hold, but the conditional part fails for the same
reason as C1: the output column list always contains all five conditional
differentials.  Evaluated at a schema lacking `AwayShots` and `HomeCorners`:
the run succeeds, yet `d_shots` and `d_corners` are among the output columns,
and the rows appear in input order. -/
theorem C6_output_columns_not_conditional :
    schemaC6.hasAwayShots = false ∧ schemaC6.hasHomeCorners = false
    ∧ run inputC6 = Except.ok oC6
    ∧ oC6.cols = ["date", "home", "away", "y", "year",
        "d_elo", "d_form3", "d_form5", "d_shots", "d_sot", "d_corners", "d_yc", "d_rc"]
    ∧ "d_shots" ∈ oC6.cols ∧ "d_corners" ∈ oC6.cols
    ∧ oC6.rows.map DRow.home = ["Alpha1", "Alpha2"] :=
  ⟨by decide, by decide, rfl, by decide, by decide, by decide, by decide⟩

/-- C7: a run fails with the missing-input error — whose payload names the
expected path and the remediation hint to provision the dataset externally —
exactly when the input file does not exist; it fails with the schema error —
whose payload is exactly the list of missing required columns — exactly when
the file exists but some required column is absent; in every other case it
succeeds and neither error is raised.  The last conjunct pins the payload
down: a column is in the missing list iff it is required and absent. -/
theorem C7_fatal_errors (i : Input) :
    (i.fileExists = false →
      run i = Except.error (PipelineError.missingInput MATCHES_CSV cloneHint))
    ∧ (i.fileExists = true → missingRequired i.schema ≠ [] →
        run i = Except.error (PipelineError.schemaError (missingRequired i.schema)))
    ∧ (i.fileExists = true → missingRequired i.schema = [] →
        run i = Except.ok { cols := out_cols, rows := derivedTable i.schema i.rows })
    ∧ (∀ c, c ∈ missingRequired i.schema ↔ c ∈ must_have ∧ hasColumn i.schema c = false) := by
  refine ⟨?_, ?_, ?_, ?_⟩
  · intro hf
    simp [run, hf]
  · intro hf hm
    simp [run, hf, hm]
  · intro hf hm
    simp [run, hf, hm]
  · intro c
    unfold missingRequired
    rw [List.mem_filter]
    simp

/-- A schema lacking the required columns `FTResult` and `AwayTeam`. -/
def schemaC7 : Schema :=
  { fullSchema with
    hasFTResult := false, hasAwayTeam := false }

def inputC7 : Input := ⟨true, schemaC7, []⟩

/-- C7 witness: a run over a schema lacking two required columns fails with
the schema error listing exactly those two columns. -/
theorem C7_witness :
    run inputC7 = Except.error (PipelineError.schemaError ["FTResult", "AwayTeam"]) := by
  have h := (C7_fatal_errors inputC7).2.1 rfl (by decide)
  have hm : missingRequired inputC7.schema = ["FTResult", "AwayTeam"] := by decide
  rw [h, hm]

/-- C8: the pipeline is deterministic.  The embedded run is a pure function
of the input file contents (existence flag, schema and rows): it consults no
clock, randomness or environment, so two runs on the same unchanged input
produce identical output tables, and the fixed CSV serialization of an
identical table is byte-identical. -/
theorem C8_deterministic (i j : Input) (h : i = j) : run i = run j := by
  rw [h]

def inputC8 : Input := ⟨true, fullSchema, [rawC2b]⟩

/-- C8 witness: two runs on the same concrete input coincide. -/
theorem C8_witness : run inputC8 = run inputC8 :=
  C8_deterministic inputC8 inputC8 rfl

/-- C9: result canonicalization uppercases but does not trim: any result
string that differs from `A`, `D` or `H` only by surrounding whitespace
still fails the label mapping after uppercasing (its length exceeds one),
so no row with such a result survives the label filter into the derived
table. -/
theorem C9_whitespace_not_trimmed (t core : String) (a b : List Char)
    (hcore : core = "A" ∨ core = "D" ∨ core = "H")
    (hsplit : t.data = a ++ core.data ++ b)
    (hwsa : ∀ c ∈ a, c = ' ' ∨ c = '\t' ∨ c = '\n' ∨ c = '\r')
    (hwsb : ∀ c ∈ b, c = ' ' ∨ c = '\t' ∨ c = '\n' ∨ c = '\r')
    (hpad : a ≠ [] ∨ b ≠ []) :
    map_features (resultStr (some t)) = none
    ∧ ∀ (s : Schema) (rs : List RawRow) (l : LRow),
        l ∈ labelRows (normalizeRows s rs) → l.x.result ≠ resultStr (some t) := by
  have hlen : 2 ≤ t.data.length := by
    have hc : core.data.length = 1 := by
      rcases hcore with hx | hx | hx <;> subst hx <;> rfl
    have h1 : t.data.length = a.length + core.data.length + b.length := by
      rw [hsplit]
      simp [List.length_append]
      omega
    have h2 : 1 ≤ a.length ∨ 1 ≤ b.length := by
      rcases hpad with hx | hx
      · exact Or.inl (List.length_pos.mpr hx)
      · exact Or.inr (List.length_pos.mpr hx)
    omega
  have hnone : map_features (resultStr (some t)) = none := by
    rcases hmy : map_features (resultStr (some t)) with _ | y
    · rfl
    · exfalso
      have h3 := map_features_eq_some hmy
      have hlen1 : (resultStr (some t)).data.length = 1 := by
        rcases h3 with ⟨he, -⟩ | ⟨he, -⟩ | ⟨he, -⟩ <;> rw [he] <;> rfl
      have hdata : (resultStr (some t)).data = t.data.map Char.toUpper := rfl
      rw [hdata, List.length_map] at hlen1
      omega
  refine ⟨hnone, ?_⟩
  intro s rs l hl heq
  have hmap := (mem_labelRows hl).2
  rw [heq, hnone] at hmap
  exact absurd hmap (by simp)

/-- C9 witness: the result string with a leading space before `H` yields a
missing label. -/
theorem C9_witness : map_features (resultStr (some " H")) = none :=
  (C9_whitespace_not_trimmed " H" "H" [' '] []
    (Or.inr (Or.inr rfl)) (by decide) (by decide) (by decide)
    (Or.inl (by decide))).1

/-- C10: the table-wide season-label check of line 72 runs after the drops of
lines 45 and 50: if every raw row that carries a season label fails retention
(missing date or unmapped result), the pipeline falls back to the calendar
year of the date for every output row. -/
theorem C10_season_flag_after_drops (i : Input) (o : Output)
    (h : run i = Except.ok o)
    (hdrop : ∀ r ∈ i.rows, r.season ≠ none →
      r.matchDate = none ∨ map_features (resultStr r.ftResult) = none) :
    ∀ d ∈ o.rows, d.year = d.date.year := by
  obtain ⟨-, -, ho⟩ := run_eq_ok h
  subst ho
  have hany : seasonAny (labelRows (normalizeRows i.schema i.rows)) = false := by
    cases hA : seasonAny (labelRows (normalizeRows i.schema i.rows))
    · rfl
    · exfalso
      unfold seasonAny at hA
      obtain ⟨l, hl, hsome⟩ := List.any_eq_true.mp hA
      obtain ⟨v, hv⟩ := Option.isSome_iff_exists.mp hsome
      obtain ⟨hx, hmap⟩ := mem_labelRows hl
      obtain ⟨r, hr, hdate, hmk⟩ := mem_normalizeRows hx
      have hseason : l.x.season = getCol i.schema.hasSeason r.season := by
        rw [hmk]
        rfl
      have hrs : r.season = some v := getCol_eq_some (hseason ▸ hv)
      rcases hdrop r hr (by rw [hrs]; simp) with hnd | hnm
      · rw [hdate] at hnd
        cases hnd
      · have hres : l.x.result = resultStr r.ftResult := by
          rw [hmk]
          rfl
        rw [← hres, hmap] at hnm
        cases hnm
  intro d hd
  obtain ⟨l, hl, hdl⟩ := mem_derivedTable hd
  rw [hdl]
  show yearOf (seasonAny (labelRows (normalizeRows i.schema i.rows))) l.x.season l.x.date
      = l.x.date.year
  rw [hany]
  rfl

/-- A row carrying a season label but an unmapped result `P` (dropped by the
label filter). -/
def rawC10 : RawRow :=
  { blankRaw with
    matchDate := some ⟨2022, 2, 2⟩, ftResult := some "P",
    homeTeam := "Iota", awayTeam := "Kappa", season := some "2020/2021" }

/-- A row with no season label, result `H`, dated 2023. -/
def rawC10b : RawRow :=
  { blankRaw with
    matchDate := some ⟨2023, 9, 9⟩, ftResult := some "H",
    homeTeam := "Lambda", awayTeam := "Mu" }

def inputC10 : Input := ⟨true, fullSchema, [rawC10, rawC10b]⟩

def oC10 : Output := ⟨out_cols, derivedTable fullSchema [rawC10, rawC10b]⟩

def dC10 : DRow := deriveRow false ⟨mkXRow fullSchema rawC10b ⟨2023, 9, 9⟩, 3⟩

/-- C10 witness: the only season-labelled row is dropped (result `P`), so the
surviving row takes the year of its date. -/
theorem C10_witness : dC10.year = dC10.date.year :=
  C10_season_flag_after_drops inputC10 oC10 rfl (by decide) dC10 (by decide)

end Stage1
